import Mathlib

/-!
Verification development for the shelf-docker catalog application.

The definitions below are a shallow embedding of the JavaScript core:

  * `CacheService` (in-memory TTL cache):     src/services/cacheService.js
  * `CachedDbService` (cache-aside wrapper):  src/services/cachedDbService.js
  * `Database` (PostgreSQL helper methods):   src/database/db.js
  * `ImageService` (image download cache):    src/services/imageService.js
  * `SyncService` (sync orchestration):       src/services/syncService.js
  * `DiscogsService.transformToRecord` and
    `BoardGameGeekService.transformToBoardGame`

JavaScript objects are modelled as insertion-ordered association lists,
machine time as `Nat` milliseconds, and `null` as an explicit value
constructor.  All definitions are executable.
-/

namespace Shelf

/-- Primitive JS values that appear in database rows, query conditions and
cached results: `null`, strings, integers and booleans. -/
inductive JsPrim where
  | null
  | str (s : String)
  | num (n : Int)
  | bool (b : Bool)
deriving DecidableEq, Repr

/-- A database row / plain JS object: an insertion-ordered association list
from property names to primitive values. -/
abbrev Row := List (String × JsPrim)

/-- Values held by the TTL cache: `null` plus the three shapes produced by
the cached read operations (`findMany` rows, a single `findOne` row, and a
`count`).  `JsVal.null` plays the role of the JS `null`, which `CacheService.get`
also returns on a miss. -/
inductive JsVal where
  | null
  | rows (rs : List Row)
  | row (r : Row)
  | count (n : Nat)
deriving DecidableEq, Repr

/-- Whether the character list `s` starts with the character list `p`
(JS `String.prototype.startsWith` on the underlying characters). -/
def startsWithList : List Char → List Char → Bool
  | _, [] => true
  | [], _ :: _ => false
  | c :: cs, p :: ps => c = p && startsWithList cs ps

/-- Whether `pat` occurs as a contiguous substring of `s`
(JS `String.prototype.includes`, character-list version). -/
def containsSubstrList : List Char → List Char → Bool
  | [], pat => startsWithList [] pat
  | c :: cs, pat => startsWithList (c :: cs) pat || containsSubstrList cs pat

/-- JS `s.includes(pat)`: substring containment on strings. -/
def containsSubstr (s pat : String) : Bool :=
  containsSubstrList s.data pat.data

/-- JS `s.startsWith(p)` on strings. -/
def strStartsWith (s p : String) : Bool :=
  startsWithList s.data p.data

/-- JS `Array.prototype.join(sep)`. -/
def joinSep (sep : String) : List String → String
  | [] => ""
  | [x] => x
  | x :: y :: ys => x ++ sep ++ joinSep sep (y :: ys)

/-- JS `Array.prototype.join(':')`. -/
def joinColon : List String → String
  | [] => ""
  | [x] => x
  | x :: y :: ys => x ++ ":" ++ joinColon (y :: ys)

/-- `JSON.stringify` of a primitive value. -/
def jsonStringifyPrim : JsPrim → String
  | JsPrim.null => "null"
  | JsPrim.str s => "\"" ++ s ++ "\""
  | JsPrim.num n => toString n
  | JsPrim.bool true => "true"
  | JsPrim.bool false => "false"

/-- JS `Array.prototype.join(',')`, used for JSON object bodies. -/
def joinComma : List String → String
  | [] => ""
  | [x] => x
  | x :: y :: ys => x ++ "," ++ joinComma (y :: ys)

/-- `JSON.stringify` of a plain object: properties are serialized in
insertion order (ECMAScript enumerates string keys in insertion order). -/
def jsonStringifyObj (fields : Row) : String :=
  "\x7b" ++ joinComma (fields.map (fun f => "\"" ++ f.1 ++ "\":" ++ jsonStringifyPrim f.2)) ++ "\x7d"

/-- One argument of `CacheService.generateKey(...parts)`: at the call sites
a part is either a string (serialized with `String(part)`), a conditions
object (`typeof part === 'object'`, serialized with `JSON.stringify`), or
`null` (`typeof null === 'object'`, and `JSON.stringify(null) = "null"`). -/
inductive JsKeyPart where
  | str (s : String)
  | obj (fields : Row)
  | null
deriving DecidableEq, Repr

/-- Serialization of a single key part, as in `CacheService.generateKey`. -/
def keyPartToString : JsKeyPart → String
  | JsKeyPart.str s => s
  | JsKeyPart.obj fields => jsonStringifyObj fields
  | JsKeyPart.null => "null"

/-- `CacheService.generateKey(...parts)`: stringify every part and join the
results with `':'`. -/
def generateKey (parts : List JsKeyPart) : String :=
  joinColon (parts.map keyPartToString)

/-! ## TTL cache (`CacheService`, src/services/cacheService.js)

The service keeps two `Map`s, `cache : key → value` and `ttls : key → expiry`;
every operation inserts into or deletes from both under the same key, so the
two maps always bind exactly the same keys.  We merge them into one
insertion-ordered association list `key → (value, expiresAt)`.  `Date.now()`
is passed explicitly as `now`. -/

/-- One cache binding: key, stored value, absolute expiry time in ms. -/
abbrev CacheEntry := String × JsVal × Nat

/-- The merged state of the `cache` and `ttls` maps of `CacheService`. -/
structure CacheState where
  entries : List CacheEntry
deriving DecidableEq, Repr

/-- A fresh `CacheService` holds no entries. -/
def emptyCache : CacheState := ⟨[]⟩

/-- `this.defaultTtl`: 15 minutes in milliseconds. -/
def defaultTtl : Nat := 15 * 60 * 1000

/-- `this.maxCacheSize`: maximum number of cache entries. -/
def maxCacheSize : Nat := 1000

/-- Look up the binding for `key` (JS `Map.get` over both maps at once). -/
def lookupEntry (c : CacheState) (key : String) : Option (JsVal × Nat) :=
  match c.entries.find? (fun e => e.1 = key) with
  | none => none
  | some e => some e.2

/-- `CacheService.delete(key)`: drop the binding for `key` from both maps. -/
def cacheDelete (c : CacheState) (key : String) : CacheState :=
  ⟨c.entries.filter (fun e => ¬ (e.1 = key))⟩

/-- `CacheService.clear()`. -/
def cacheClear (_c : CacheState) : CacheState := ⟨[]⟩

/-- Insert a binding the way `Map.set` does: if the key is present its value
is replaced in place (iteration order keeps the original position), otherwise
the binding is appended at the end. -/
def insertEntry : List CacheEntry → String → JsVal → Nat → List CacheEntry
  | [], key, v, exp => [(key, v, exp)]
  | e :: es, key, v, exp =>
    if e.1 = key then (key, v, exp) :: es else e :: insertEntry es key v exp

/-- Insertion sort step ordering entries by ascending expiry time. -/
def insertByExpiry (e : CacheEntry) : List CacheEntry → List CacheEntry
  | [] => [e]
  | f :: fs => if e.2.2 < f.2.2 then e :: f :: fs else f :: insertByExpiry e fs

/-- `Array.from(this.ttls.entries()).sort(([,a],[,b]) => a - b)`: the entries
sorted by ascending expiry time. -/
def sortByExpiry (l : List CacheEntry) : List CacheEntry :=
  l.foldr insertByExpiry []

/-- `CacheService.evictOldest()`: remove the `Math.ceil(size * 0.1)` entries
with the soonest expiry ("oldest" in the source's terminology).  For the
sizes reachable here (`≤ 1000`) the float expression `Math.ceil(n * 0.1)`
equals `⌈n / 10⌉`, embedded as `(n + 9) / 10` on `Nat`. -/
def evictOldest (c : CacheState) : CacheState :=
  ((sortByExpiry c.entries).take ((c.entries.length + 9) / 10)).foldl
    (fun acc e => cacheDelete acc e.1) c

/-- `CacheService.set(key, value, ttl)`: evict the oldest 10% when at
capacity, then bind `key` to `value` with expiry `now + ttl` in both maps. -/
def cacheSet (c : CacheState) (now : Nat) (key : String) (v : JsVal) (ttl : Nat) : CacheState :=
  let c1 := if c.entries.length ≥ maxCacheSize then evictOldest c else c
  ⟨insertEntry c1.entries key v (now + ttl)⟩

/-- One `set(key, value, ttl)` call issued at time `now`. -/
structure SetOp where
  now : Nat
  key : String
  value : JsVal
  ttl : Nat
deriving Repr

/-- Run a sequence of `set` operations against the cache. -/
def applySetOps (c : CacheState) (ops : List SetOp) : CacheState :=
  ops.foldl (fun acc op => cacheSet acc op.now op.key op.value op.ttl) c

/-- `CacheService.get(key)`: an absent expiry, a falsy expiry (`0`), or an
expiry in the past (`now > expiresAt`) deletes the binding and returns `null`;
otherwise the stored value is returned.  A stored `null` value is therefore
returned exactly like a miss. -/
def cacheGet (c : CacheState) (now : Nat) (key : String) : JsVal × CacheState :=
  match lookupEntry c key with
  | none => (JsVal.null, cacheDelete c key)
  | some (v, exp) =>
    if exp = 0 ∨ now > exp then (JsVal.null, cacheDelete c key) else (v, c)

/-- `CacheService.has(key)`: same expiry handling as `get`, returning a
boolean. -/
def cacheHas (c : CacheState) (now : Nat) (key : String) : Bool × CacheState :=
  match lookupEntry c key with
  | none => (false, cacheDelete c key)
  | some (_, exp) =>
    if exp = 0 ∨ now > exp then (false, cacheDelete c key) else (true, c)

/-- `CacheService.invalidatePattern(pattern)`: delete every binding whose key
contains `pattern` as a substring; return how many were removed. -/
def invalidatePattern (c : CacheState) (pattern : String) : Nat × CacheState :=
  ((c.entries.filter (fun e => containsSubstr e.1 pattern)).length,
   ⟨c.entries.filter (fun e => containsSubstr e.1 pattern = false)⟩)

/-- `CacheService.cleanup()`: the background sweep removing every binding
whose expiry has passed. -/
def cacheCleanup (c : CacheState) (now : Nat) : CacheState :=
  ⟨c.entries.filter (fun e => ¬ (now > e.2.2))⟩

/-! ## Persistent store (`Database`, src/database/db.js)

The helper methods build SQL over a PostgreSQL pool.  We model a database as
named tables of rows.  `CURRENT_TIMESTAMP` is the explicit `now` argument.
SQL `ORDER BY` only permutes the produced rows; the model returns rows in
table order (none of the verified properties concern the result order). -/

/-- `Database` state: tables by name.  Tables referenced by the application
are created by the schema migration, so lookups default to the empty table. -/
structure DbState where
  tables : List (String × List Row)
deriving DecidableEq, Repr

/-- Rows of table `t`. -/
def getTable (db : DbState) (t : String) : List Row :=
  match db.tables.find? (fun e => e.1 = t) with
  | none => []
  | some e => e.2

/-- Helper for `setTable`: replace the binding of `t` in a table list. -/
def setTableRows (t : String) (rows : List Row) : List (String × List Row) → List (String × List Row)
  | [] => [(t, rows)]
  | e :: es => if e.1 = t then (t, rows) :: es else e :: setTableRows t rows es

/-- Replace the rows of table `t` (inserting the table if it is absent). -/
def setTable (db : DbState) (t : String) (rows : List Row) : DbState :=
  ⟨setTableRows t rows db.tables⟩

/-- Value of column `k` in row `r` (JS property read). -/
def rowGet (r : Row) (k : String) : Option JsPrim :=
  match r.find? (fun p => p.1 = k) with
  | none => none
  | some p => some p.2

/-- Set column `k` of row `r` to `v` (JS property write: replace in place or
append). -/
def rowSet : Row → String → JsPrim → Row
  | [], k, v => [(k, v)]
  | p :: ps, k, v => if p.1 = k then (k, v) :: ps else p :: rowSet ps k v

/-- SQL `WHERE k1 = v1 AND k2 = v2 ...` built from a conditions object. -/
def rowMatches (conds : Row) (r : Row) : Bool :=
  conds.all (fun p => decide (rowGet r p.1 = some p.2))

/-- `db.findMany(table, conditions, orderBy)`: all rows satisfying the
conditions (result order not modelled; see the section comment). -/
def dbFindMany (db : DbState) (t : String) (conds : Row) : List Row :=
  (getTable db t).filter (rowMatches conds)

/-- `db.findOne(table, conditions)`: `SELECT ... LIMIT 1` — the first
matching row, or `null`. -/
def dbFindOne (db : DbState) (t : String) (conds : Row) : Option Row :=
  (getTable db t).find? (rowMatches conds)

/-- `UPDATE ... SET <data>, updated_at = CURRENT_TIMESTAMP` applied to one
row: every property of `data` overwrites the row's column. -/
def applyUpdateData (r : Row) (data : Row) (now : Nat) : Row :=
  rowSet (data.foldl (fun acc p => rowSet acc p.1 p.2) r) "updated_at" (JsPrim.num now)

/-- `db.update(table, data, conditions)`: update every row matching the
conditions and stamp `updated_at`. -/
def dbUpdate (db : DbState) (t : String) (data : Row) (conds : Row) (now : Nat) : DbState :=
  setTable db t
    ((getTable db t).map (fun r => if rowMatches conds r then applyUpdateData r data now else r))

/-- Whether existing row `r` collides with the inserted `data` on the unique
`conflictColumns` (the `ON CONFLICT` target of `db.upsert`). -/
def rowConflict (r : Row) (data : Row) (conflictColumns : List String) : Bool :=
  conflictColumns.all (fun c => decide (rowGet r c = rowGet data c))

/-- `DO UPDATE SET k = EXCLUDED.k` for every data column outside the conflict
columns, plus `updated_at = CURRENT_TIMESTAMP`. -/
def applyConflictUpdate (r : Row) (data : Row) (conflictColumns : List String) (now : Nat) : Row :=
  rowSet
    (data.foldl (fun acc p => if p.1 ∈ conflictColumns then acc else rowSet acc p.1 p.2) r)
    "updated_at" (JsPrim.num now)

/-- `INSERT ... ON CONFLICT (cols) DO UPDATE` over the rows of one table:
update the (unique) colliding row if there is one, insert otherwise. -/
def upsertRows (data : Row) (conflictColumns : List String) (now : Nat) : List Row → List Row
  | [] => [data]
  | r :: rs =>
    if rowConflict r data conflictColumns then applyConflictUpdate r data conflictColumns now :: rs
    else r :: upsertRows data conflictColumns now rs

/-- `db.upsert(table, data, conflictColumns)`.  With no conflict columns the
source issues a plain `INSERT`. -/
def dbUpsert (db : DbState) (t : String) (data : Row) (conflictColumns : List String) (now : Nat) : DbState :=
  match conflictColumns with
  | [] => setTable db t (getTable db t ++ [data])
  | _ :: _ => setTable db t (upsertRows data conflictColumns now (getTable db t))

/-- `db.delete(table, conditions)`: remove every matching row. -/
def dbDelete (db : DbState) (t : String) (conds : Row) : DbState :=
  setTable db t ((getTable db t).filter (fun r => rowMatches conds r = false))

/-! ## Cache-aside store (`CachedDbService`, src/services/cachedDbService.js) -/

/-- Combined state threaded through the cached wrappers. -/
structure SysState where
  db : DbState
  cache : CacheState
deriving DecidableEq, Repr

/-- `this.cacheTtls[table] || this.cacheTtls.static`: per-table TTLs with a
one-hour default. -/
def cacheTtlFor (t : String) : Nat :=
  if t = "records" then 10 * 60 * 1000
  else if t = "board_games" then 15 * 60 * 1000
  else if t = "books" then 15 * 60 * 1000
  else if t = "sync_status" then 30 * 1000
  else 60 * 60 * 1000

/-- The `orderBy` argument as a `generateKey` part: a string goes through
`String(part)`, the `null` default through `JSON.stringify` (its `typeof` is
`'object'`). -/
def orderByPart : Option String → JsKeyPart
  | none => JsKeyPart.null
  | some s => JsKeyPart.str s

/-- The cache key of `CachedDbService.findMany(table, conditions, orderBy)`. -/
def findManyKey (t : String) (conds : Row) (orderBy : Option String) : String :=
  generateKey [JsKeyPart.str "findMany", JsKeyPart.str t, JsKeyPart.obj conds, orderByPart orderBy]

/-- The cache key of `CachedDbService.findOne(table, conditions)`. -/
def findOneKey (t : String) (conds : Row) : String :=
  generateKey [JsKeyPart.str "findOne", JsKeyPart.str t, JsKeyPart.obj conds]

/-- `CachedDbService.findMany`: serve from cache unless `get` returned
`null`; otherwise query the store and cache the rows with the per-table TTL.
The middle component records whether the persistent store was queried. -/
def cachedFindMany (s : SysState) (now : Nat) (t : String) (conds : Row) (orderBy : Option String) :
    JsVal × Bool × SysState :=
  let key := findManyKey t conds orderBy
  let (cached, cache1) := cacheGet s.cache now key
  if cached ≠ JsVal.null then (cached, false, ⟨s.db, cache1⟩)
  else
    let result := JsVal.rows (dbFindMany s.db t conds)
    (result, true, ⟨s.db, cacheSet cache1 now key result (cacheTtlFor t)⟩)

/-- `CachedDbService.findOne`: as `findMany`; note that a `null` row result
is cached as the value `null`. -/
def cachedFindOne (s : SysState) (now : Nat) (t : String) (conds : Row) :
    JsVal × Bool × SysState :=
  let key := findOneKey t conds
  let (cached, cache1) := cacheGet s.cache now key
  if cached ≠ JsVal.null then (cached, false, ⟨s.db, cache1⟩)
  else
    let result := match dbFindOne s.db t conds with
      | none => JsVal.null
      | some r => JsVal.row r
    (result, true, ⟨s.db, cacheSet cache1 now key result (cacheTtlFor t)⟩)

/-- `CachedDbService.invalidateTable(table)`: drop every cached entry whose
key contains `:table:`. -/
def invalidateTable (c : CacheState) (t : String) : CacheState :=
  (invalidatePattern c (":" ++ t ++ ":")).2

/-- `CachedDbService.upsert`: write through to the store, then synchronously
invalidate the table's cached entries before returning. -/
def cachedUpsert (s : SysState) (t : String) (data : Row) (conflictColumns : List String) (now : Nat) :
    SysState :=
  let db1 := dbUpsert s.db t data conflictColumns now
  ⟨db1, invalidateTable s.cache t⟩

/-- `CachedDbService.update`.  The wrapper's parameter list names the second
argument `conditions` and the third `data`, but it forwards them positionally
to `db.update(table, data, conditions)`, and every caller already passes
`(table, data, conditions)` — so the swap cancels out and the data object is
the second argument here, as at the call sites. -/
def cachedUpdate (s : SysState) (t : String) (data : Row) (conds : Row) (now : Nat) : SysState :=
  ⟨dbUpdate s.db t data conds now, invalidateTable s.cache t⟩

/-- `CachedDbService.delete`. -/
def cachedDelete (s : SysState) (t : String) (conds : Row) : SysState :=
  ⟨dbDelete s.db t conds, invalidateTable s.cache t⟩

/-- `CachedDbService.create` calls `db.create(table, data)`, but the
`Database` class defines `insert` and no `create`: the call raises
`TypeError: db.create is not a function` before any store write or cache
invalidation happens.  The state is returned unchanged next to the error. -/
def cachedCreate (s : SysState) (_t : String) (_data : Row) : Except String Row × SysState :=
  (Except.error "TypeError: db.create is not a function", s)

/-- `CachedDbService.batchUpsert` calls `db.batchUpsert`, which the
`Database` class does not define either; as with `create` the call throws
before touching the store or the cache. -/
def cachedBatchUpsert (s : SysState) (_t : String) (_dataArray : List Row)
    (_conflictColumns : List String) : Except String (List Row) × SysState :=
  (Except.error "TypeError: db.batchUpsert is not a function", s)

/-- `CachedDbService.count` checks the cache, but on a miss it calls
`db.count`, which the `Database` class does not define: the miss path throws.
Nothing ever populates a `count:` key, so in practice every call throws. -/
def cachedCount (s : SysState) (now : Nat) (t : String) (conds : Row) :
    Except String JsVal × SysState :=
  let key := generateKey [JsKeyPart.str "count", JsKeyPart.str t, JsKeyPart.obj conds]
  let (cached, cache1) := cacheGet s.cache now key
  if cached ≠ JsVal.null then (Except.ok cached, ⟨s.db, cache1⟩)
  else (Except.error "TypeError: db.count is not a function", ⟨s.db, cache1⟩)

/-! ## Discogs item transformation (`DiscogsService`, src/services/discogsService.js)

API items are JS objects; fields the transformer reads are modelled as
optional values.  JS treats both a missing field and an empty string as
falsy; the model writes falsy string fields as `Option.none`. -/

/-- An entry of `basic_information.artists`. -/
structure DiscogsArtist where
  name : String
deriving DecidableEq, Repr

/-- An entry of `basic_information.labels`. -/
structure DiscogsLabel where
  name : String
  catno : Option String
deriving DecidableEq, Repr

/-- An entry of `basic_information.formats`. -/
structure DiscogsFormat where
  name : String
deriving DecidableEq, Repr

/-- The fields of a Discogs release object that `transformToRecord` reads. -/
structure BasicInformation where
  id : Option Int
  artists : List DiscogsArtist
  title : Option String
  year : Option Int
  formats : List DiscogsFormat
  country : Option String
  labels : List DiscogsLabel
  genres : Option (List String)
  styles : Option (List String)
  thumb : Option String
  cover_image : Option String
deriving DecidableEq, Repr

/-- A raw Discogs collection or wantlist item.  `basic_information` is the
nested release object; `topLevel` carries the item's own release fields, read
by the `item.basic_information || item` fallback when the nested object is
absent. -/
structure DiscogsItem where
  basic_information : Option BasicInformation
  topLevel : BasicInformation
  date_added : Option String
deriving DecidableEq, Repr

/-- `item.basic_information || item`. -/
def resolveBasicInformation (item : DiscogsItem) : BasicInformation :=
  match item.basic_information with
  | some bi => bi
  | none => item.topLevel

/-- An optional string as a column value (`undefined`/missing becomes SQL
`NULL`). -/
def optStr : Option String → JsPrim
  | none => JsPrim.null
  | some s => JsPrim.str s

/-- An optional integer as a column value. -/
def optNum : Option Int → JsPrim
  | none => JsPrim.null
  | some n => JsPrim.num n

/-- `DiscogsService.getMainArtist`. -/
def getMainArtist : List DiscogsArtist → String
  | [] => "Unknown Artist"
  | a :: _ => a.name

/-- `DiscogsService.getSortArtist`: the main artist's name, with a leading
article "The " (checked case-insensitively) moved to a ", The" suffix. -/
def getSortArtist : List DiscogsArtist → String
  | [] => "Unknown Artist"
  | a :: _ =>
    let sortName := a.name
    if startsWithList (sortName.data.map Char.toLower) "the ".data
    then String.mk (sortName.data.drop 4) ++ ", The"
    else sortName

/-- `DiscogsService.getFormat`. -/
def getFormat : List DiscogsFormat → String
  | [] => "Unknown"
  | f :: fs => joinSep ", " ((f :: fs).map DiscogsFormat.name)

/-- `DiscogsService.getMainLabel`. -/
def getMainLabel : List DiscogsLabel → String
  | [] => "Unknown Label"
  | l :: _ => l.name

/-- `DiscogsService.getCatalogNumber` (`labels[0].catno || ''`). -/
def getCatalogNumber : List DiscogsLabel → String
  | [] => ""
  | l :: _ => match l.catno with
    | none => ""
    | some c => c

/-- `DiscogsService.getDiscogsImageUrl`: `cover_image` first, then `thumb`,
else `null`. -/
def getDiscogsImageUrl (bi : BasicInformation) : JsPrim :=
  match bi.cover_image with
  | some c => JsPrim.str c
  | none => match bi.thumb with
    | some t => JsPrim.str t
    | none => JsPrim.null

/-- `JSON.stringify` of an array of strings (used for `genres`/`styles`). -/
def jsonStringifyStrList (l : List String) : String :=
  "[" ++ joinComma (l.map (fun s => "\"" ++ s ++ "\"")) ++ "]"

/-- `DiscogsService.transformToRecord(item, isWishlist)`: the upserted row.
`new Date()` for a missing `date_added` is the explicit `nowStr`. -/
def transformToRecord (item : DiscogsItem) (isWishlist : Bool) (nowStr : String) : Row :=
  let basic_information := resolveBasicInformation item
  [("external_id",
      match basic_information.id with
      | some i => JsPrim.str (toString i)
      | none => JsPrim.null),
   ("artist", JsPrim.str (getMainArtist basic_information.artists)),
   ("sort_artist", JsPrim.str (getSortArtist basic_information.artists)),
   ("title", optStr basic_information.title),
   ("year_of_original_release", optNum basic_information.year),
   ("year_of_release", optNum basic_information.year),
   ("format", JsPrim.str (getFormat basic_information.formats)),
   ("country", optStr basic_information.country),
   ("label", JsPrim.str (getMainLabel basic_information.labels)),
   ("catalog_number", JsPrim.str (getCatalogNumber basic_information.labels)),
   ("genres", JsPrim.str (jsonStringifyStrList (basic_information.genres.getD []))),
   ("styles", JsPrim.str (jsonStringifyStrList (basic_information.styles.getD []))),
   ("thumb_url", optStr basic_information.thumb),
   ("cover_image_url", getDiscogsImageUrl basic_information),
   ("date_added",
      match item.date_added with
      | some d => JsPrim.str d
      | none => JsPrim.str nowStr),
   ("in_collection", JsPrim.bool (!isWishlist)),
   ("in_wishlist", JsPrim.bool isWishlist)]

/-! ## Sync orchestration (`SyncService`, src/services/syncService.js) -/

/-- `SyncService.updateSyncStatus(service, inProgress, errorMessage)`: build
the update object — `last_sync_at = new Date()` is added whenever
`inProgress` is false — and run it through the cache-aside `update` with the
condition `{ service }`. -/
def updateSyncStatus (s : SysState) (service : String) (inProgress : Bool)
    (errorMessage : Option String) (now : Nat) : SysState :=
  let base : Row := [("sync_in_progress", JsPrim.bool inProgress),
                     ("error_message", optStr errorMessage)]
  let updateData := if inProgress then base else base ++ [("last_sync_at", JsPrim.num now)]
  cachedUpdate s "sync_status" updateData [("service", JsPrim.str service)] now

/-- One record's persistence step inside `SyncService.processRecordsInParallel`:
transform, then upsert through the cache-aside store keyed on `external_id`.
The image-enrichment step between the two (`downloadRecordImages`) only adds
`*_image_local_path` fields and can lower `year_of_original_release`; it
never touches the `in_collection` / `in_wishlist` columns the theorems below
are about, and is modelled separately in the image-service section. -/
def processOneRecord (s : SysState) (item : DiscogsItem) (isWishlist : Bool)
    (nowStr : String) (now : Nat) : SysState :=
  cachedUpsert s "records" (transformToRecord item isWishlist nowStr) ["external_id"] now

/-- `SyncService.processRecordsInParallel(items, isWishlist)`: the items are
processed in batches of three, every batch awaited before the next starts.
Each item is transformed and upserted exactly once, so for the per-id column
values proved below the pass acts as this left fold over the items. -/
def processRecordsSeq (s : SysState) (items : List DiscogsItem) (isWishlist : Bool)
    (nowStr : String) (now : Nat) : SysState :=
  items.foldl (fun acc item => processOneRecord acc item isWishlist nowStr now) s

/-- The successful path of `SyncService.syncRecords`: mark the source in
progress, process the full collection list, then the full wishlist list
(`await` separates the two), then clear the in-progress flag. -/
def syncRecordsSuccess (s : SysState) (collectionItems wishlistItems : List DiscogsItem)
    (nowStr : String) (now : Nat) : SysState :=
  let s1 := updateSyncStatus s "discogs" true none now
  let s2 := processRecordsSeq s1 collectionItems false nowStr now
  let s3 := processRecordsSeq s2 wishlistItems true nowStr now
  updateSyncStatus s3 "discogs" false none now

/-- The catch branch of `SyncService.syncRecords`: an exception escaping the
batch loop ends the pass with
`updateSyncStatus('discogs', false, error.message)`. -/
def syncRecordsCatch (s : SysState) (errorMessage : String) (now : Nat) : SysState :=
  updateSyncStatus s "discogs" false (some errorMessage) now

/-- The two kinds of sync trigger sharing the `isRunning` guard. -/
inductive TriggerKind where
  | manual
  | periodic
deriving DecidableEq, Repr

/-- What a trigger did: started the sync, was rejected with an error
(manual), or was silently skipped (periodic). -/
inductive TriggerResult where
  | started
  | rejected
  | skipped
deriving DecidableEq, Repr

/-- The guard prologue of `SyncService.performSync` (also run by the periodic
timer callback): if `isRunning` the trigger returns immediately, otherwise
the flag is set and the sync body runs. -/
def performSyncGuard (isRunning : Bool) : TriggerResult × Bool :=
  if isRunning then (TriggerResult.skipped, isRunning) else (TriggerResult.started, true)

/-- The guard prologue of `SyncService.syncRecordsManually` /
`syncBoardGamesManually`: if `isRunning` the call throws
`Error('Sync already in progress')`, otherwise the flag is set. -/
def manualSyncGuard (isRunning : Bool) : TriggerResult × Bool :=
  if isRunning then (TriggerResult.rejected, isRunning) else (TriggerResult.started, true)

/-- Dispatch a trigger of either kind against the shared guard. -/
def triggerStep (isRunning : Bool) : TriggerKind → TriggerResult × Bool
  | TriggerKind.manual => manualSyncGuard isRunning
  | TriggerKind.periodic => performSyncGuard isRunning

/-- The `finally { this.isRunning = false }` epilogue every started sync runs
when it settles. -/
def syncSettle (_isRunning : Bool) : Bool := false

/-! ## Image cache (`ImageService`, src/services/imageService.js)

The filesystem is a map from paths to file data; the network is an oracle
from URLs to responses; every `fetch` performed is counted.  `path.join`
output is modelled with `/` separators (the exact separator never matters for
the properties proved). -/

/-- What the image validity check can observe about a file: its byte size
and whether `sharp` can decode it. -/
structure FileData where
  size : Nat
  validImage : Bool
deriving DecidableEq, Repr

/-- Filesystem state: files by path. -/
structure FileState where
  files : List (String × FileData)
deriving DecidableEq, Repr

/-- Look up a file. -/
def fsLookup (fs : FileState) (p : String) : Option FileData :=
  match fs.files.find? (fun e => e.1 = p) with
  | none => none
  | some e => some e.2

/-- Helper list update for `fsWrite`. -/
def fsWriteList : List (String × FileData) → String → FileData → List (String × FileData)
  | [], p, d => [(p, d)]
  | e :: es, p, d => if e.1 = p then (p, d) :: es else e :: fsWriteList es p d

/-- Write a file (overwrite or create). -/
def fsWrite (fs : FileState) (p : String) (d : FileData) : FileState :=
  ⟨fsWriteList fs.files p d⟩

/-- `ImageService.validateExistingImage(filePath)`: the file exists, has
non-zero size, and `sharp(...).metadata()` succeeds; any failure (including a
missing file) yields `false`. -/
def validateExistingImage (fs : FileState) (filePath : String) : Bool :=
  match fsLookup fs filePath with
  | none => false
  | some f => if f.size = 0 then false else f.validImage

/-- What the downloader observes about an HTTP response: `response.ok`, the
declared `content-type`, and whether `sharp` can decode the body. -/
structure HttpResponse where
  ok : Bool
  contentType : Option String
  bodyDecodable : Bool
deriving Repr

/-- `contentType && contentType.includes('text/html')`. -/
def contentTypeIsHtml : Option String → Bool
  | none => false
  | some ct => containsSubstr ct "text/html"

/-- Result of an image acquisition: the returned path (or absent), the
filesystem afterwards, and how many network fetches were performed. -/
structure DownloadOutcome where
  result : Option String
  fs : FileState
  networkCalls : Nat
deriving Repr

/-- The file `sharp` writes on success: a freshly re-encoded JPEG, so
non-empty and decodable. -/
def processedImageFile : FileData := ⟨1, true⟩

/-- `ImageService.downloadImage(url, dir, filename)`: reject a non-HTTP URL
without fetching; fetch once; treat a non-ok status or an HTML content type
as failure before anything is written; otherwise decode, resize, re-encode
and write the target file.  Every failure is caught and returned as an
absent result — never raised to the caller. -/
def downloadImage (net : String → HttpResponse) (fs : FileState)
    (url dir filename : String) : DownloadOutcome :=
  if strStartsWith url "http" = false then ⟨none, fs, 0⟩
  else
    let resp := net url
    if resp.ok = false then ⟨none, fs, 1⟩
    else if contentTypeIsHtml resp.contentType then ⟨none, fs, 1⟩
    else if resp.bodyDecodable then
      ⟨some (dir ++ "/" ++ filename), fsWrite fs (dir ++ "/" ++ filename) processedImageFile, 1⟩
    else ⟨none, fs, 1⟩

/-- `this.recordsPath` after `path.join` normalization. -/
def recordsPath : String := "public/images/records"

/-- `this.boardGamesPath` after `path.join` normalization. -/
def boardGamesPath : String := "public/images/board-games"

/-- `this.booksPath` after `path.join` normalization. -/
def booksPath : String := "public/images/books"

/-- The per-source filename chosen by `downloadRecordImage`. -/
def recordImageFilename (imageType : String) : String :=
  if imageType = "discogs" then "discogs-album-art.jpg" else "itunes-album-art.jpg"

/-- `ImageService.downloadRecordImage(recordId, imageUrl, token, imageType)`:
the one acquisition path with the cached-file check — a valid existing file
short-circuits to the web path with no fetch.  The `token` only contributes
a request header, which the network oracle does not inspect. -/
def downloadRecordImage (net : String → HttpResponse) (fs : FileState)
    (recordId imageUrl : String) (imageType : String) : DownloadOutcome :=
  if imageUrl = "" then ⟨none, fs, 0⟩
  else
    let recordDir := recordsPath ++ "/record" ++ recordId
    let filename := recordImageFilename imageType
    let fullPath := recordDir ++ "/" ++ filename
    if validateExistingImage fs fullPath then
      ⟨some ("/images/records/record" ++ recordId ++ "/" ++ filename), fs, 0⟩
    else
      let d := downloadImage net fs imageUrl recordDir filename
      match d.result with
      | some _ => ⟨some ("/images/records/record" ++ recordId ++ "/" ++ filename), d.fs, d.networkCalls⟩
      | none => ⟨none, d.fs, d.networkCalls⟩

/-- `ImageService.downloadBoardGameImage(gameId, imageUrl)`: no cached-file
check — the download is always attempted. -/
def downloadBoardGameImage (net : String → HttpResponse) (fs : FileState)
    (gameId imageUrl : String) : DownloadOutcome :=
  if imageUrl = "" then ⟨none, fs, 0⟩
  else
    let gameDir := boardGamesPath ++ "/boardgame" ++ gameId
    let d := downloadImage net fs imageUrl gameDir "board-game-cover-art.jpg"
    match d.result with
    | some _ => ⟨some ("/images/board-games/boardgame" ++ gameId ++ "/board-game-cover-art.jpg"),
                 d.fs, d.networkCalls⟩
    | none => ⟨none, d.fs, d.networkCalls⟩

/-- `ImageService.downloadBookImage(bookId, imageUrl)`: no cached-file check
either. -/
def downloadBookImage (net : String → HttpResponse) (fs : FileState)
    (bookId imageUrl : String) : DownloadOutcome :=
  if imageUrl = "" then ⟨none, fs, 0⟩
  else
    let bookDir := booksPath ++ "/book" ++ bookId
    let d := downloadImage net fs imageUrl bookDir "book-cover-art.jpg"
    match d.result with
    | some _ => ⟨some ("/images/books/book" ++ bookId ++ "/book-cover-art.jpg"), d.fs, d.networkCalls⟩
    | none => ⟨none, d.fs, d.networkCalls⟩

/-! ## Supporting lemmas -/

/-- Dropping an element satisfying `¬ p` makes `filter p` strictly shorter. -/
theorem length_filter_lt_of_mem {α : Type} (p : α → Bool) :
    ∀ (l : List α) (x : α), x ∈ l → p x = false → (l.filter p).length < l.length := by
  intro l
  induction l with
  | nil => intro x hx; cases hx
  | cons a as ih =>
    intro x hx hp
    rcases List.mem_cons.mp hx with h | h
    · subst h
      simp only [List.filter, hp]
      exact Nat.lt_succ_of_le (List.length_filter_le p as)
    · by_cases ha : p a
      · simpa [List.filter, ha] using ih x h hp
      · simp only [List.filter, Bool.not_eq_true] at ha ⊢
        rw [ha]
        exact Nat.lt_succ_of_lt (ih x h hp)

/-- A key never survives its own deletion. -/
theorem find?_key_filter_ne (k : String) :
    ∀ l : List CacheEntry,
      (l.filter (fun e => ¬ (e.1 = k))).find? (fun e => e.1 = k) = none := by
  intro l
  induction l with
  | nil => rfl
  | cons a as ih => by_cases h : a.1 = k <;> simp [List.filter, h, ih]

/-- `delete(key)` removes the binding for `key`. -/
theorem lookupEntry_cacheDelete_self (c : CacheState) (k : String) :
    lookupEntry (cacheDelete c k) k = none := by
  unfold lookupEntry cacheDelete
  rw [find?_key_filter_ne]

/-- `Map.set` semantics of `insertEntry`: the inserted binding is found. -/
theorem find?_insertEntry_self (k : String) (v : JsVal) (exp : Nat) :
    ∀ l : List CacheEntry, (insertEntry l k v exp).find? (fun e => e.1 = k) = some (k, v, exp) := by
  intro l
  induction l with
  | nil => simp [insertEntry]
  | cons a as ih => by_cases h : a.1 = k <;> simp [insertEntry, h, ih]

/-- After `set(key, value, ttl)` at time `now` the binding for `key` holds
`value` with expiry `now + ttl`, whatever eviction did first. -/
theorem lookupEntry_cacheSet_self (c : CacheState) (now : Nat) (k : String) (v : JsVal) (ttl : Nat) :
    lookupEntry (cacheSet c now k v ttl) k = some (v, now + ttl) := by
  simp [lookupEntry, cacheSet, find?_insertEntry_self]

/-- `insertEntry` grows the entry list by at most one. -/
theorem length_insertEntry_le (k : String) (v : JsVal) (exp : Nat) :
    ∀ l : List CacheEntry, (insertEntry l k v exp).length ≤ l.length + 1 := by
  intro l
  induction l with
  | nil => simp [insertEntry]
  | cons a as ih =>
    by_cases h : a.1 = k
    · simp [insertEntry, h]
    · simpa [insertEntry, h, Nat.succ_le_succ_iff] using ih

/-- Insertion by expiry adds exactly one entry. -/
theorem length_insertByExpiry (e : CacheEntry) :
    ∀ l : List CacheEntry, (insertByExpiry e l).length = l.length + 1 := by
  intro l
  induction l with
  | nil => rfl
  | cons a as ih => by_cases h : e.2.2 < a.2.2 <;> simp [insertByExpiry, h, ih]

/-- Sorting by expiry preserves the number of entries. -/
theorem length_sortByExpiry :
    ∀ l : List CacheEntry, (sortByExpiry l).length = l.length := by
  intro l
  induction l with
  | nil => rfl
  | cons a as ih => simp [sortByExpiry, List.foldr] at ih ⊢; simp [length_insertByExpiry, ih]

/-- Insertion by expiry introduces no new entries. -/
theorem mem_insertByExpiry (e x : CacheEntry) :
    ∀ l : List CacheEntry, x ∈ insertByExpiry e l → x = e ∨ x ∈ l := by
  intro l
  induction l with
  | nil => intro h; simpa [insertByExpiry] using h
  | cons a as ih =>
    intro h
    by_cases hc : e.2.2 < a.2.2
    · simp only [insertByExpiry, if_pos hc] at h
      rcases List.mem_cons.mp h with h | h
      · exact Or.inl h
      · exact Or.inr h
    · simp only [insertByExpiry, if_neg hc] at h
      rcases List.mem_cons.mp h with h | h
      · exact Or.inr (List.mem_cons.mpr (Or.inl h))
      · rcases ih h with h | h
        · exact Or.inl h
        · exact Or.inr (List.mem_cons.mpr (Or.inr h))

/-- Members of the expiry-sorted list come from the original list. -/
theorem mem_sortByExpiry (x : CacheEntry) :
    ∀ l : List CacheEntry, x ∈ sortByExpiry l → x ∈ l := by
  intro l
  induction l with
  | nil => intro h; simp [sortByExpiry] at h
  | cons a as ih =>
    intro h
    rcases mem_insertByExpiry a x (sortByExpiry as) h with h | h
    · exact List.mem_cons.mpr (Or.inl h)
    · exact List.mem_cons.mpr (Or.inr (ih h))

/-- Deleting never grows the cache. -/
theorem cacheDelete_length_le (c : CacheState) (k : String) :
    (cacheDelete c k).entries.length ≤ c.entries.length :=
  List.length_filter_le _ _

/-- Deleting a present key strictly shrinks the cache. -/
theorem cacheDelete_length_lt (c : CacheState) (x : CacheEntry) (hx : x ∈ c.entries) :
    (cacheDelete c x.1).entries.length < c.entries.length := by
  apply length_filter_lt_of_mem _ _ x hx
  simp

/-- A fold of deletions never grows the cache. -/
theorem foldl_cacheDelete_length_le :
    ∀ (es : List CacheEntry) (c : CacheState),
      ((es.foldl (fun acc e => cacheDelete acc e.1) c)).entries.length ≤ c.entries.length := by
  intro es
  induction es with
  | nil => intro c; exact Nat.le_refl _
  | cons e es ih =>
    intro c
    exact Nat.le_trans (ih (cacheDelete c e.1)) (cacheDelete_length_le c e.1)

/-- `evictOldest` on a non-empty cache removes at least one entry. -/
theorem evictOldest_length_lt (c : CacheState) (h : 1 ≤ c.entries.length) :
    (evictOldest c).entries.length < c.entries.length := by
  unfold evictOldest
  rcases hs : sortByExpiry c.entries with _ | ⟨e, rest⟩
  · exfalso
    have hlen := length_sortByExpiry c.entries
    rw [hs] at hlen
    simp at hlen
    omega
  · obtain ⟨k, hk10⟩ : ∃ k, (c.entries.length + 9) / 10 = k + 1 :=
      ⟨(c.entries.length + 9) / 10 - 1, by omega⟩
    rw [hk10]
    simp only [List.take_succ_cons, List.foldl_cons]
    have hmem : e ∈ c.entries := by
      apply mem_sortByExpiry
      rw [hs]
      exact List.mem_cons_self _ _
    exact Nat.lt_of_le_of_lt (foldl_cacheDelete_length_le _ _) (cacheDelete_length_lt c e hmem)

/-- One `set` keeps the cache at or below the ceiling. -/
theorem cacheSet_length_le (c : CacheState) (now : Nat) (k : String) (v : JsVal) (ttl : Nat)
    (h : c.entries.length ≤ maxCacheSize) :
    (cacheSet c now k v ttl).entries.length ≤ maxCacheSize := by
  unfold cacheSet
  by_cases hc : c.entries.length ≥ maxCacheSize
  · have h1000 : c.entries.length = maxCacheSize := Nat.le_antisymm h hc
    have h1 : 1 ≤ c.entries.length := by rw [h1000]; decide
    have hev := evictOldest_length_lt c h1
    have := length_insertEntry_le k v (now + ttl) (evictOldest c).entries
    simp only [if_pos hc]
    omega
  · have := length_insertEntry_le k v (now + ttl) c.entries
    simp only [if_neg hc]
    omega

/-- Claim C6: for every sequence of `set` operations on the TTL cache, the
entry count never exceeds the configured maximum (1000): when `set` finds
the cache at capacity it first evicts the 10% of entries with the soonest
expiry (rounded up) and then inserts, so after every `set` — equivalently,
after every prefix of the sequence — the cache is at or below the ceiling. -/
theorem c6_cache_never_exceeds_ceiling : ∀ ops : List SetOp,
    (applySetOps emptyCache ops).entries.length ≤ maxCacheSize := by
  have aux : ∀ (ops : List SetOp) (c : CacheState), c.entries.length ≤ maxCacheSize →
      (applySetOps c ops).entries.length ≤ maxCacheSize := by
    intro ops
    induction ops with
    | nil => intro c hc; exact hc
    | cons op ops ih =>
      intro c hc
      exact ih (cacheSet c op.now op.key op.value op.ttl) (cacheSet_length_le _ _ _ _ _ hc)
  intro ops
  apply aux
  decide

/-- Claim C8: a `get` on a key whose entry has expired (`now > expiresAt`)
returns `null` and removes the entry; `has` likewise reports `false` and
removes it (read-triggered lazy eviction). -/
theorem c8_expired_get_has_removes (c : CacheState) (k : String) (v : JsVal) (exp now : Nat)
    (hlook : lookupEntry c k = some (v, exp)) (hexp : exp < now) :
    (cacheGet c now k).1 = JsVal.null ∧ lookupEntry (cacheGet c now k).2 k = none ∧
    (cacheHas c now k).1 = false ∧ lookupEntry (cacheHas c now k).2 k = none := by
  have hcond : exp = 0 ∨ now > exp := Or.inr hexp
  unfold cacheGet cacheHas
  rw [hlook]
  simp [hcond, lookupEntry_cacheDelete_self]

/-- Witness for C8 on a concrete one-entry cache whose entry expired at 5,
read at time 6. -/
theorem c8_witness :
    lookupEntry ⟨[("k1", JsVal.count 3, 5)]⟩ "k1" = some (JsVal.count 3, 5) ∧ 5 < 6 ∧
    ((cacheGet ⟨[("k1", JsVal.count 3, 5)]⟩ 6 "k1").1 = JsVal.null ∧
     lookupEntry (cacheGet ⟨[("k1", JsVal.count 3, 5)]⟩ 6 "k1").2 "k1" = none ∧
     (cacheHas ⟨[("k1", JsVal.count 3, 5)]⟩ 6 "k1").1 = false ∧
     lookupEntry (cacheHas ⟨[("k1", JsVal.count 3, 5)]⟩ 6 "k1").2 "k1" = none) :=
  ⟨by decide, by decide,
   c8_expired_get_has_removes ⟨[("k1", JsVal.count 3, 5)]⟩ "k1" (JsVal.count 3) 5 6
     (by decide) (by decide)⟩

/-- Claim C7: two back-to-back sync triggers share the single `isRunning`
guard: from the idle state the first trigger of either kind starts and sets
the flag; a second trigger arriving while the flag is set is rejected
(manual) or silently skipped (periodic), never started and never queued,
and leaves the flag set; when the one started sync settles, its `finally`
clears the flag, so after both triggers settle `isRunning` is `false`. -/
theorem c7_single_sync_guard : ∀ k1 k2 : TriggerKind,
    (triggerStep false k1).1 = TriggerResult.started ∧
    (triggerStep false k1).2 = true ∧
    (triggerStep (triggerStep false k1).2 TriggerKind.manual).1 = TriggerResult.rejected ∧
    (triggerStep (triggerStep false k1).2 TriggerKind.periodic).1 = TriggerResult.skipped ∧
    (triggerStep (triggerStep false k1).2 k2).1 ≠ TriggerResult.started ∧
    (triggerStep (triggerStep false k1).2 k2).2 = true ∧
    syncSettle (triggerStep (triggerStep false k1).2 k2).2 = false := by
  intro k1 k2
  cases k1 <;> cases k2 <;> decide

/-- Claim C9: a download whose response is not ok, or declares an HTML
content type, returns an absent result and leaves the filesystem exactly as
it was — no file (corrupt, partial or otherwise) is written at the target
path.  `downloadImage` is a total function into `DownloadOutcome`, so the
failure is never raised to the caller. -/
theorem c9_html_response_no_file (net : String → HttpResponse) (fs : FileState)
    (url dir filename : String)
    (hbad : (net url).ok = false ∨ contentTypeIsHtml (net url).contentType = true) :
    (downloadImage net fs url dir filename).result = none ∧
    (downloadImage net fs url dir filename).fs = fs := by
  unfold downloadImage
  by_cases hurl : strStartsWith url "http" = false
  · simp [hurl]
  · rcases hbad with hok | hhtml
    · simp [hurl, hok]
    · by_cases hok2 : (net url).ok = false
      · simp [hurl, hok2]
      · simp [hurl, hok2, hhtml]

/-- Witness for C9: a concrete response with a failing status. -/
theorem c9_witness :
    ((fun _ : String => HttpResponse.mk false (some "text/html") true) "http://api/x").ok = false ∧
    ((downloadImage (fun _ => HttpResponse.mk false (some "text/html") true) ⟨[]⟩
        "http://api/x" "public/images/records/record1" "discogs-album-art.jpg").result = none ∧
     (downloadImage (fun _ => HttpResponse.mk false (some "text/html") true) ⟨[]⟩
        "http://api/x" "public/images/records/record1" "discogs-album-art.jpg").fs = ⟨[]⟩) :=
  ⟨rfl,
   c9_html_response_no_file (fun _ => HttpResponse.mk false (some "text/html") true) ⟨[]⟩
     "http://api/x" "public/images/records/record1" "discogs-album-art.jpg" (Or.inl rfl)⟩

/-- Counterexample to claim C5 as stated: for board games (and books) there
is no cached-file check — with a valid image already at the canonical target
path, `downloadBoardGameImage` still performs one network fetch instead of
zero. -/
theorem c5_boardgame_counterexample :
    validateExistingImage ⟨[("public/images/board-games/boardgame9/board-game-cover-art.jpg",
        ⟨5, true⟩)]⟩ "public/images/board-games/boardgame9/board-game-cover-art.jpg" = true ∧
    (downloadBoardGameImage (fun _ => HttpResponse.mk true (some "image/jpeg") true)
        ⟨[("public/images/board-games/boardgame9/board-game-cover-art.jpg", ⟨5, true⟩)]⟩
        "9" "http://img.example/a.png").networkCalls = 1 := by
  constructor
  · decide
  · rfl

/-- Claim C5 as amended: the dedup guarantee holds for the record catalog
type only.  For records (both the `discogs` and `itunes` source tags), when
a non-empty decodable file exists at the canonical target path, acquisition
performs zero network calls, leaves the filesystem unchanged, and returns
the existing web-accessible path.  Board games and books have no cached-file
check and always attempt the download (see the counterexample). -/
theorem c5_amended_records_cached_no_network (net : String → HttpResponse) (fs : FileState)
    (recordId imageUrl imageType : String) (hurl : imageUrl ≠ "")
    (hvalid : validateExistingImage fs
        (recordsPath ++ "/record" ++ recordId ++ "/" ++ recordImageFilename imageType) = true) :
    downloadRecordImage net fs recordId imageUrl imageType
      = ⟨some ("/images/records/record" ++ recordId ++ "/" ++ recordImageFilename imageType),
         fs, 0⟩ := by
  unfold downloadRecordImage
  simp [hurl, hvalid]

/-- Witness for C5 (amended) on a concrete cached record image. -/
theorem c5_amended_witness :
    "http://img.example/cover.jpg" ≠ "" ∧
    validateExistingImage ⟨[("public/images/records/record7/discogs-album-art.jpg", ⟨9, true⟩)]⟩
      (recordsPath ++ "/record" ++ "7" ++ "/" ++ recordImageFilename "discogs") = true ∧
    downloadRecordImage (fun _ => HttpResponse.mk true (some "image/jpeg") true)
        ⟨[("public/images/records/record7/discogs-album-art.jpg", ⟨9, true⟩)]⟩
        "7" "http://img.example/cover.jpg" "discogs"
      = ⟨some ("/images/records/record" ++ "7" ++ "/" ++ recordImageFilename "discogs"),
         ⟨[("public/images/records/record7/discogs-album-art.jpg", ⟨9, true⟩)]⟩, 0⟩ :=
  ⟨by decide, by decide,
   c5_amended_records_cached_no_network (fun _ => HttpResponse.mk true (some "image/jpeg") true)
     ⟨[("public/images/records/record7/discogs-album-art.jpg", ⟨9, true⟩)]⟩
     "7" "http://img.example/cover.jpg" "discogs" (by decide) (by decide)⟩

/-- Counterexample to claim C4 as stated: the two condition objects bind the
same keys to the same values (they are permutations of one another), yet
`generateKey` produces different cache keys, because `JSON.stringify`
serializes properties in insertion order rather than canonically. -/
theorem c4_insertion_order_counterexample :
    ([("a", JsPrim.num 1), ("b", JsPrim.num 2)] : Row).Perm
      [("b", JsPrim.num 2), ("a", JsPrim.num 1)] ∧
    generateKey [JsKeyPart.str "findMany", JsKeyPart.str "records",
        JsKeyPart.obj [("a", JsPrim.num 1), ("b", JsPrim.num 2)], JsKeyPart.null]
      ≠ generateKey [JsKeyPart.str "findMany", JsKeyPart.str "records",
        JsKeyPart.obj [("b", JsPrim.num 2), ("a", JsPrim.num 1)], JsKeyPart.null] := by
  constructor
  · decide
  · decide

/-- Claim C4 as amended: cache keys are deterministic, order-sensitive
compositions — the operation name, the collection identifier, the
`JSON.stringify` serialization of the conditions object in property
insertion order, and the serialized `orderBy` part, joined by `':'`.  Two
condition objects yield the same key exactly when this insertion-ordered
serialization coincides; equality of the underlying key-value maps is not
sufficient (see the counterexample). -/
theorem c4_amended_key_is_ordered_composition : ∀ (op coll : String) (conds : Row) (ord : JsKeyPart),
    generateKey [JsKeyPart.str op, JsKeyPart.str coll, JsKeyPart.obj conds, ord]
      = op ++ ":" ++ coll ++ ":" ++ jsonStringifyObj conds ++ ":" ++ keyPartToString ord := by
  intro op coll conds ord
  simp [generateKey, joinColon, keyPartToString, String.append_assoc]

/-- Every list starts with the empty pattern. -/
theorem startsWithList_nil : ∀ s : List Char, startsWithList s [] = true := by
  intro s
  cases s <;> rfl

/-- A list starts with its own leading segment. -/
theorem startsWithList_self_append : ∀ p b : List Char, startsWithList (p ++ b) p = true := by
  intro p
  induction p with
  | nil => intro b; exact startsWithList_nil b
  | cons c cs ih => intro b; simp [startsWithList, ih]

/-- A leading match is in particular a substring match. -/
theorem containsSubstrList_of_startsWith (s pat : List Char)
    (h : startsWithList s pat = true) : containsSubstrList s pat = true := by
  cases s with
  | nil => simpa [containsSubstrList] using h
  | cons c cs => simp [containsSubstrList, h]

/-- Substring containment survives prepending. -/
theorem containsSubstrList_append_left (pat : List Char) :
    ∀ a s : List Char, containsSubstrList s pat = true →
      containsSubstrList (a ++ s) pat = true := by
  intro a
  induction a with
  | nil => intro s h; simpa using h
  | cons c cs ih => intro s h; simp [containsSubstrList, ih s h]

/-- A string of the shape `a ++ pat ++ b` contains `pat`. -/
theorem containsSubstr_append_middle (a pat b : String) :
    containsSubstr (a ++ (pat ++ b)) pat = true := by
  unfold containsSubstr
  have hdata : (a ++ (pat ++ b)).data = a.data ++ (pat.data ++ b.data) := rfl
  rw [hdata]
  exact containsSubstrList_append_left _ a.data _
    (containsSubstrList_of_startsWith _ _ (startsWithList_self_append _ _))

/-- The `findMany` cache key decomposed around its `:table:` segment. -/
theorem findManyKey_shape (t : String) (conds : Row) (o : Option String) :
    findManyKey t conds o
      = "findMany" ++ ((":" ++ t ++ ":")
          ++ (jsonStringifyObj conds ++ (":" ++ keyPartToString (orderByPart o)))) := by
  simp only [findManyKey, generateKey, List.map, joinColon, keyPartToString,
    String.append_assoc]

/-- Every `findMany` key for table `t` contains the invalidation pattern
`:t:`. -/
theorem findManyKey_contains_pattern (t : String) (conds : Row) (o : Option String) :
    containsSubstr (findManyKey t conds o) (":" ++ t ++ ":") = true := by
  rw [findManyKey_shape]
  exact containsSubstr_append_middle _ _ _

/-- The `findOne` cache key decomposed around its `:table:` segment. -/
theorem findOneKey_shape (t : String) (conds : Row) :
    findOneKey t conds = "findOne" ++ ((":" ++ t ++ ":") ++ jsonStringifyObj conds) := by
  simp only [findOneKey, generateKey, List.map, joinColon, keyPartToString,
    String.append_assoc]

/-- Every `findOne` key for table `t` contains the invalidation pattern
`:t:`. -/
theorem findOneKey_contains_pattern (t : String) (conds : Row) :
    containsSubstr (findOneKey t conds) (":" ++ t ++ ":") = true := by
  rw [findOneKey_shape]
  exact containsSubstr_append_middle _ _ _

/-- No key containing the invalidated pattern survives `invalidatePattern`. -/
theorem find?_key_invalidated (pat k : String) (h : containsSubstr k pat = true) :
    ∀ l : List CacheEntry,
      (l.filter (fun e => containsSubstr e.1 pat = false)).find? (fun e => e.1 = k) = none := by
  intro l
  rw [List.find?_eq_none]
  intro e he
  simp only [decide_eq_true_eq]
  intro hek
  have hc := List.of_mem_filter he
  simp only [decide_eq_true_eq] at hc
  rw [hek, h] at hc
  cases hc

/-- `invalidatePattern` makes every key containing the pattern a miss. -/
theorem lookupEntry_invalidatePattern_none (c : CacheState) (pat k : String)
    (h : containsSubstr k pat = true) :
    lookupEntry (invalidatePattern c pat).2 k = none := by
  unfold lookupEntry invalidatePattern
  rw [find?_key_invalidated pat k h]

/-- Filtering for `p` after keeping only the elements with `p _ = false`
yields nothing. -/
theorem filter_true_of_filter_false {α : Type} (p : α → Bool) :
    ∀ l : List α, (l.filter (fun x => p x = false)).filter p = [] := by
  intro l
  induction l with
  | nil => rfl
  | cons a as ih => by_cases h : p a <;> simp [List.filter, h, ih]

/-- After `invalidateTable t` no cached entry references table `t`. -/
theorem filter_invalidateTable_nil (c : CacheState) (t : String) :
    (invalidateTable c t).entries.filter
      (fun e => containsSubstr e.1 (":" ++ t ++ ":")) = [] := by
  unfold invalidateTable invalidatePattern
  exact filter_true_of_filter_false _ c.entries

/-- A `findMany` issued against a state whose cache was just invalidated for
its table always queries the persistent store and returns its rows. -/
theorem cachedFindMany_fresh (db1 : DbState) (c0 : CacheState) (t : String) (conds : Row)
    (o : Option String) (now : Nat) :
    (cachedFindMany ⟨db1, invalidateTable c0 t⟩ now t conds o).1
        = JsVal.rows (dbFindMany db1 t conds) ∧
    (cachedFindMany ⟨db1, invalidateTable c0 t⟩ now t conds o).2.1 = true := by
  have hlook : lookupEntry (invalidateTable c0 t) (findManyKey t conds o) = none :=
    lookupEntry_invalidatePattern_none c0 _ _ (findManyKey_contains_pattern t conds o)
  constructor <;> simp [cachedFindMany, cacheGet, hlook]

/-- A `findOne` issued against a state whose cache was just invalidated for
its table always queries the persistent store. -/
theorem cachedFindOne_fresh (db1 : DbState) (c0 : CacheState) (t : String) (conds : Row)
    (now : Nat) :
    (cachedFindOne ⟨db1, invalidateTable c0 t⟩ now t conds).2.1 = true := by
  have hlook : lookupEntry (invalidateTable c0 t) (findOneKey t conds) = none :=
    lookupEntry_invalidatePattern_none c0 _ _ (findOneKey_contains_pattern t conds)
  simp [cachedFindOne, cacheGet, hlook]

/-- Counterexample to claim C3 as stated: `create` (and likewise
`batchUpsert`) delegates to a method the `Database` class does not define,
so the call throws before any write or invalidation — a cached entry whose
key references the written collection survives the call unchanged. -/
theorem c3_create_counterexample :
    containsSubstr (findManyKey "records" [] none) ":records:" = true ∧
    (cachedCreate ⟨⟨[("records", [])]⟩,
        ⟨[(findManyKey "records" [] none, JsVal.rows [], 100)]⟩⟩ "records" []).2.cache.entries
      = [(findManyKey "records" [] none, JsVal.rows [], 100)] ∧
    (cachedCreate ⟨⟨[("records", [])]⟩,
        ⟨[(findManyKey "records" [] none, JsVal.rows [], 100)]⟩⟩ "records" []).1
      = Except.error "TypeError: db.create is not a function" :=
  ⟨by decide, rfl, rfl⟩

/-- Claim C3 as amended: the write operations whose persistent-store
delegate exists — `update`, `upsert`, `delete` — synchronously remove every
cached entry whose key references the written collection before the call
returns, so an immediately following read of that collection always queries
the persistent store afresh (`findMany` returns exactly the post-write store
rows).  `create` and `batchUpsert` throw a `TypeError` (their `db` delegates
are undefined) before performing any write or any invalidation, leaving the
whole state unchanged. -/
theorem c3_amended_write_invalidates_synchronously :
    ∀ (s : SysState) (t : String) (data : Row) (cols : List String)
      (conds readConds : Row) (o : Option String) (now now2 : Nat),
    ((cachedUpsert s t data cols now).cache.entries.filter
        (fun e => containsSubstr e.1 (":" ++ t ++ ":"))) = [] ∧
    ((cachedUpdate s t data conds now).cache.entries.filter
        (fun e => containsSubstr e.1 (":" ++ t ++ ":"))) = [] ∧
    ((cachedDelete s t conds).cache.entries.filter
        (fun e => containsSubstr e.1 (":" ++ t ++ ":"))) = [] ∧
    (cachedFindMany (cachedUpsert s t data cols now) now2 t readConds o).1
      = JsVal.rows (dbFindMany (cachedUpsert s t data cols now).db t readConds) ∧
    (cachedFindMany (cachedUpsert s t data cols now) now2 t readConds o).2.1 = true ∧
    (cachedFindMany (cachedUpdate s t data conds now) now2 t readConds o).1
      = JsVal.rows (dbFindMany (cachedUpdate s t data conds now).db t readConds) ∧
    (cachedFindOne (cachedUpdate s t data conds now) now2 t readConds).2.1 = true ∧
    (cachedFindMany (cachedDelete s t conds) now2 t readConds o).1
      = JsVal.rows (dbFindMany (cachedDelete s t conds).db t readConds) ∧
    cachedCreate s t data = (Except.error "TypeError: db.create is not a function", s) ∧
    cachedBatchUpsert s t [data] cols
      = (Except.error "TypeError: db.batchUpsert is not a function", s) := by
  intro s t data cols conds readConds o now now2
  refine ⟨filter_invalidateTable_nil s.cache t, filter_invalidateTable_nil s.cache t,
    filter_invalidateTable_nil s.cache t,
    (cachedFindMany_fresh _ s.cache t readConds o now2).1,
    (cachedFindMany_fresh _ s.cache t readConds o now2).2,
    (cachedFindMany_fresh _ s.cache t readConds o now2).1,
    cachedFindOne_fresh _ s.cache t readConds now2,
    (cachedFindMany_fresh _ s.cache t readConds o now2).1,
    rfl, rfl⟩

/-- On a stored `null` value, `get` returns `null` whether or not the entry
has expired — indistinguishable from a miss. -/
theorem cacheGet_fst_of_stored_null (c : CacheState) (k : String) (exp now2 : Nat)
    (h : lookupEntry c k = some (JsVal.null, exp)) :
    (cacheGet c now2 k).1 = JsVal.null := by
  unfold cacheGet
  rw [h]
  by_cases hcond : exp = 0 ∨ now2 > exp <;> simp [hcond]

/-- Claim C10: when the persistent store has no row for a `findOne`, the
`null` placed in the cache can never be served: the first call (a cache
miss) queries the store, returns `null`, and caches `null`; because
`CacheService.get` returns the same `null` for a miss, an expired entry and
a stored `null` value, every subsequent `findOne` with the same key — at any
later time — queries the persistent store again.  Absent lookups are
effectively never cached. -/
theorem c10_null_result_never_served (s : SysState) (now : Nat) (t : String) (conds : Row)
    (hdb : dbFindOne s.db t conds = none)
    (hmiss : (cacheGet s.cache now (findOneKey t conds)).1 = JsVal.null) :
    (cachedFindOne s now t conds).1 = JsVal.null ∧
    (cachedFindOne s now t conds).2.1 = true ∧
    ∀ now2 : Nat, (cachedFindOne (cachedFindOne s now t conds).2.2 now2 t conds).2.1 = true := by
  rcases hget : cacheGet s.cache now (findOneKey t conds) with ⟨cached, cache1⟩
  rw [hget] at hmiss
  simp only at hmiss
  subst hmiss
  have h1 : cachedFindOne s now t conds
      = (JsVal.null, true,
         ⟨s.db, cacheSet cache1 now (findOneKey t conds) JsVal.null (cacheTtlFor t)⟩) := by
    simp [cachedFindOne, hget, hdb]
  refine ⟨by rw [h1], by rw [h1], ?_⟩
  intro now2
  rw [h1]
  have hstored : lookupEntry (cacheSet cache1 now (findOneKey t conds) JsVal.null (cacheTtlFor t))
      (findOneKey t conds) = some (JsVal.null, now + cacheTtlFor t) :=
    lookupEntry_cacheSet_self _ _ _ _ _
  rcases hget2 : cacheGet (cacheSet cache1 now (findOneKey t conds) JsVal.null (cacheTtlFor t))
      now2 (findOneKey t conds) with ⟨c2, cc2⟩
  have hc2 : c2 = JsVal.null := by
    have := cacheGet_fst_of_stored_null _ _ _ now2 hstored
    rw [hget2] at this
    exact this
  subst hc2
  simp [cachedFindOne, hget2]

/-- Witness for C10: an empty store and empty cache; the first `findOne`
misses and queries, and the second (issued later, at time 5) queries again. -/
theorem c10_witness :
    dbFindOne (⟨[("records", [])]⟩ : DbState) "records" [("external_id", JsPrim.str "1")] = none ∧
    (cacheGet emptyCache 0 (findOneKey "records" [("external_id", JsPrim.str "1")])).1
      = JsVal.null ∧
    (cachedFindOne ⟨⟨[("records", [])]⟩, emptyCache⟩ 0 "records"
        [("external_id", JsPrim.str "1")]).2.1 = true ∧
    (cachedFindOne (cachedFindOne ⟨⟨[("records", [])]⟩, emptyCache⟩ 0 "records"
        [("external_id", JsPrim.str "1")]).2.2 5 "records"
        [("external_id", JsPrim.str "1")]).2.1 = true :=
  ⟨by decide, by decide,
   (c10_null_result_never_served ⟨⟨[("records", [])]⟩, emptyCache⟩ 0 "records"
       [("external_id", JsPrim.str "1")] (by decide) (by decide)).2.1,
   (c10_null_result_never_served ⟨⟨[("records", [])]⟩, emptyCache⟩ 0 "records"
       [("external_id", JsPrim.str "1")] (by decide) (by decide)).2.2 5⟩

/-- Replacing a table's rows makes them its rows. -/
theorem find?_setTableRows (t : String) (rows : List Row) :
    ∀ l : List (String × List Row),
      (setTableRows t rows l).find? (fun e => e.1 = t) = some (t, rows) := by
  intro l
  induction l with
  | nil => simp [setTableRows]
  | cons a as ih => by_cases h : a.1 = t <;> simp [setTableRows, h, ih]

/-- Reading the table just written through `setTable`. -/
theorem getTable_setTable_self (db : DbState) (t : String) (rows : List Row) :
    getTable (setTable db t rows) t = rows := by
  simp [getTable, setTable, find?_setTableRows]

/-- The column just written by `rowSet` reads back. -/
theorem rowGet_rowSet_self (k : String) (v : JsPrim) :
    ∀ r : Row, rowGet (rowSet r k v) k = some v := by
  intro r
  induction r with
  | nil => simp [rowSet, rowGet]
  | cons p ps ih =>
    by_cases h : p.1 = k
    · simp [rowSet, h, rowGet]
    · simp only [rowSet, if_neg h]
      simpa [rowGet, List.find?, h] using ih

/-- `rowSet` leaves other columns alone. -/
theorem rowGet_rowSet_ne (k k' : String) (v : JsPrim) (hne : ¬ (k = k')) :
    ∀ r : Row, rowGet (rowSet r k v) k' = rowGet r k' := by
  intro r
  induction r with
  | nil => simp [rowSet, rowGet, hne]
  | cons p ps ih =>
    by_cases h : p.1 = k
    · have hp : ¬ (p.1 = k') := by rw [h]; exact hne
      simp [rowSet, h, rowGet, List.find?, hne, hp]
    · have hne' : ¬ (k' = k) := fun hh => hne hh.symm
      by_cases h' : p.1 = k'
      · simp [rowSet, h, rowGet, List.find?, h', hne']
      · simp only [rowSet, if_neg h]
        simpa [rowGet, List.find?, h'] using ih

/-- `find?` over an update-matching `map`: the first match is the updated
first match of the original list, provided updating preserves matching. -/
theorem find?_map_ite {α : Type} (p : α → Bool) (f : α → α)
    (hpf : ∀ x, p x = true → p (f x) = true) :
    ∀ l : List α,
      (l.map (fun r => if p r then f r else r)).find? p = (l.find? p).map f := by
  intro l
  induction l with
  | nil => rfl
  | cons a as ih =>
    by_cases h : p a = true
    · simp [List.find?_cons, h, hpf a h]
    · simp [List.find?_cons, h, ih]

/-- The persistent-store effect of the failure-path status write: an
`UPDATE` of the matching `sync_status` rows that sets `sync_in_progress`,
`error_message` and — because `inProgress` is false — `last_sync_at`. -/
theorem updateSyncStatus_false_db (s : SysState) (msg : String) (now : Nat) :
    (updateSyncStatus s "discogs" false (some msg) now).db
      = dbUpdate s.db "sync_status"
          [("sync_in_progress", JsPrim.bool false), ("error_message", JsPrim.str msg),
           ("last_sync_at", JsPrim.num now)] [("service", JsPrim.str "discogs")] now := by
  simp [updateSyncStatus, cachedUpdate, optStr]

/-- Counterexample to claim C2 as stated: a `sync_status` row that has never
synced (`last_sync_at` is `null`); after the failure path of the records
sync pass runs at time 42, `last_sync_at` has been changed to 42 — it is not
left unchanged. -/
theorem c2_failure_counterexample :
    rowGet [("service", JsPrim.str "discogs"), ("last_sync_at", JsPrim.null),
        ("sync_in_progress", JsPrim.bool true), ("error_message", JsPrim.null)] "last_sync_at"
      = some JsPrim.null ∧
    ((dbFindOne (syncRecordsCatch ⟨⟨[("sync_status",
          [[("service", JsPrim.str "discogs"), ("last_sync_at", JsPrim.null),
            ("sync_in_progress", JsPrim.bool true), ("error_message", JsPrim.null)]])]⟩,
          emptyCache⟩ "Discogs API error: 500" 42).db "sync_status"
        [("service", JsPrim.str "discogs")]).map (fun r => rowGet r "last_sync_at"))
      = some (some (JsPrim.num 42)) := by
  constructor
  · decide
  · decide

/-- Claim C2 as amended: when a source's sync pass fails, the orchestrator
sets `errorMessage` and `inProgress = false` for that source — and also
updates `lastSyncAt` to the time the pass ended: `updateSyncStatus` stamps
`last_sync_at = new Date()` whenever `inProgress` becomes false, on failure
and success alike, so `lastSyncAt` records the end of the last attempt, not
of the last successful pass. -/
theorem c2_amended_failure_updates_status (s : SysState) (msg : String) (now : Nat) (r : Row)
    (hfound : dbFindOne s.db "sync_status" [("service", JsPrim.str "discogs")] = some r) :
    dbFindOne (syncRecordsCatch s msg now).db "sync_status" [("service", JsPrim.str "discogs")]
      = some (applyUpdateData r
          [("sync_in_progress", JsPrim.bool false), ("error_message", JsPrim.str msg),
           ("last_sync_at", JsPrim.num now)] now) ∧
    rowGet (applyUpdateData r
        [("sync_in_progress", JsPrim.bool false), ("error_message", JsPrim.str msg),
         ("last_sync_at", JsPrim.num now)] now) "sync_in_progress"
      = some (JsPrim.bool false) ∧
    rowGet (applyUpdateData r
        [("sync_in_progress", JsPrim.bool false), ("error_message", JsPrim.str msg),
         ("last_sync_at", JsPrim.num now)] now) "error_message"
      = some (JsPrim.str msg) ∧
    rowGet (applyUpdateData r
        [("sync_in_progress", JsPrim.bool false), ("error_message", JsPrim.str msg),
         ("last_sync_at", JsPrim.num now)] now) "last_sync_at"
      = some (JsPrim.num now) := by
  have hpf : ∀ x : Row, rowMatches [("service", JsPrim.str "discogs")] x = true →
      rowMatches [("service", JsPrim.str "discogs")]
        (applyUpdateData x
          [("sync_in_progress", JsPrim.bool false), ("error_message", JsPrim.str msg),
           ("last_sync_at", JsPrim.num now)] now) = true := by
    intro x hx
    have hget : rowGet (applyUpdateData x
        [("sync_in_progress", JsPrim.bool false), ("error_message", JsPrim.str msg),
         ("last_sync_at", JsPrim.num now)] now) "service" = rowGet x "service" := by
      simp [applyUpdateData, List.foldl,
        rowGet_rowSet_ne "updated_at" "service" _ (by decide),
        rowGet_rowSet_ne "last_sync_at" "service" _ (by decide),
        rowGet_rowSet_ne "error_message" "service" _ (by decide),
        rowGet_rowSet_ne "sync_in_progress" "service" _ (by decide)]
    simp only [rowMatches, List.all_cons, List.all_nil, Bool.and_true,
      decide_eq_true_eq] at hx ⊢
    rw [hget]
    exact hx
  constructor
  · rw [show syncRecordsCatch s msg now = updateSyncStatus s "discogs" false (some msg) now
        from rfl, updateSyncStatus_false_db]
    unfold dbUpdate dbFindOne
    rw [getTable_setTable_self, find?_map_ite _ _ hpf]
    unfold dbFindOne at hfound
    rw [hfound]
    rfl
  · refine ⟨?_, ?_, ?_⟩ <;>
      simp [applyUpdateData, List.foldl, rowGet_rowSet_self,
        rowGet_rowSet_ne "updated_at" "sync_in_progress" _ (by decide),
        rowGet_rowSet_ne "updated_at" "error_message" _ (by decide),
        rowGet_rowSet_ne "updated_at" "last_sync_at" _ (by decide),
        rowGet_rowSet_ne "last_sync_at" "sync_in_progress" _ (by decide),
        rowGet_rowSet_ne "last_sync_at" "error_message" _ (by decide),
        rowGet_rowSet_ne "error_message" "sync_in_progress" _ (by decide)]

/-- Witness for C2 (amended) on a concrete `sync_status` table. -/
theorem c2_amended_witness :
    dbFindOne (⟨[("sync_status",
        [[("service", JsPrim.str "discogs"), ("last_sync_at", JsPrim.num 3),
          ("sync_in_progress", JsPrim.bool true), ("error_message", JsPrim.null)]])]⟩ : DbState)
      "sync_status" [("service", JsPrim.str "discogs")]
      = some [("service", JsPrim.str "discogs"), ("last_sync_at", JsPrim.num 3),
          ("sync_in_progress", JsPrim.bool true), ("error_message", JsPrim.null)] ∧
    dbFindOne (syncRecordsCatch ⟨⟨[("sync_status",
        [[("service", JsPrim.str "discogs"), ("last_sync_at", JsPrim.num 3),
          ("sync_in_progress", JsPrim.bool true), ("error_message", JsPrim.null)]])]⟩,
        emptyCache⟩ "boom" 7).db "sync_status" [("service", JsPrim.str "discogs")]
      = some (applyUpdateData
          [("service", JsPrim.str "discogs"), ("last_sync_at", JsPrim.num 3),
           ("sync_in_progress", JsPrim.bool true), ("error_message", JsPrim.null)]
          [("sync_in_progress", JsPrim.bool false), ("error_message", JsPrim.str "boom"),
           ("last_sync_at", JsPrim.num 7)] 7) :=
  ⟨by decide,
   (c2_amended_failure_updates_status ⟨⟨[("sync_status",
        [[("service", JsPrim.str "discogs"), ("last_sync_at", JsPrim.num 3),
          ("sync_in_progress", JsPrim.bool true), ("error_message", JsPrim.null)]])]⟩,
        emptyCache⟩ "boom" 7
      [("service", JsPrim.str "discogs"), ("last_sync_at", JsPrim.num 3),
       ("sync_in_progress", JsPrim.bool true), ("error_message", JsPrim.null)]
      (by decide)).1⟩

/-- Counterexample to claim C1 as stated: external id 7 appears in both the
collection and the wishlist list of one records sync pass.  After the full
pass the persisted row for id 7 has `in_collection = false` and
`in_wishlist = true`, not both `true`: the wishlist upsert of the
later-processed list overwrote the `in_collection = true` flag set by the
collection pass, because the `ON CONFLICT` update overwrites every
non-conflict column it is given. -/
theorem c1_both_lists_counterexample :
    ((dbFindOne (syncRecordsSuccess ⟨⟨[("records", [])]⟩, emptyCache⟩
        [⟨some ⟨some 7, [], none, none, [], none, [], none, none, none, none⟩,
          ⟨some 7, [], none, none, [], none, [], none, none, none, none⟩, none⟩]
        [⟨some ⟨some 7, [], none, none, [], none, [], none, none, none, none⟩,
          ⟨some 7, [], none, none, [], none, [], none, none, none, none⟩, none⟩]
        "2025-01-01" 0).db "records" [("external_id", JsPrim.str "7")]).map
      (fun r => (rowGet r "in_collection", rowGet r "in_wishlist")))
      = some (some (JsPrim.bool false), some (JsPrim.bool true)) ∧
    ((dbFindOne (syncRecordsSuccess ⟨⟨[("records", [])]⟩, emptyCache⟩
        [⟨some ⟨some 7, [], none, none, [], none, [], none, none, none, none⟩,
          ⟨some 7, [], none, none, [], none, [], none, none, none, none⟩, none⟩]
        [⟨some ⟨some 7, [], none, none, [], none, [], none, none, none, none⟩,
          ⟨some 7, [], none, none, [], none, [], none, none, none, none⟩, none⟩]
        "2025-01-01" 0).db "records" [("external_id", JsPrim.str "7")]).map
      (fun r => (rowGet r "in_collection", rowGet r "in_wishlist")))
      ≠ some (some (JsPrim.bool true), some (JsPrim.bool true)) := by
  constructor
  · decide
  · decide

/-- `rowMatches` on a single condition is the one column comparison. -/
theorem rowMatches_single (k : String) (v : JsPrim) (r : Row) :
    rowMatches [(k, v)] r = decide (rowGet r k = some v) := by
  simp [rowMatches]

/-- `rowConflict` on the single conflict column `external_id`. -/
theorem rowConflict_single (r data : Row) :
    rowConflict r data ["external_id"]
      = decide (rowGet r "external_id" = rowGet data "external_id") := by
  simp [rowConflict]

/-- A wishlist-origin transform always writes `in_collection = false` and
`in_wishlist = true`, whatever the item contains. -/
theorem transform_wishlist_flags (it : DiscogsItem) (nowStr : String) :
    rowGet (transformToRecord it true nowStr) "in_collection" = some (JsPrim.bool false) ∧
    rowGet (transformToRecord it true nowStr) "in_wishlist" = some (JsPrim.bool true) := by
  constructor <;> simp [transformToRecord, rowGet, List.find?]

/-- The transform's `external_id` column for an item whose release id is
`i`. -/
theorem transform_external_id (it : DiscogsItem) (i : Int) (nowStr : String) (isWishlist : Bool)
    (hid : (resolveBasicInformation it).id = some i) :
    rowGet (transformToRecord it isWishlist nowStr) "external_id"
      = some (JsPrim.str (toString i)) := by
  simp [transformToRecord, rowGet, List.find?, hid]

/-- The `ON CONFLICT` update with a wishlist transform keeps the row's
`external_id` (a conflict column is never overwritten) and overwrites both
flags to the wishlist values. -/
theorem conflictUpdate_wishlist_facts (r : Row) (it : DiscogsItem) (nowStr : String) (now : Nat) :
    rowGet (applyConflictUpdate r (transformToRecord it true nowStr) ["external_id"] now)
        "external_id" = rowGet r "external_id" ∧
    rowGet (applyConflictUpdate r (transformToRecord it true nowStr) ["external_id"] now)
        "in_collection" = some (JsPrim.bool false) ∧
    rowGet (applyConflictUpdate r (transformToRecord it true nowStr) ["external_id"] now)
        "in_wishlist" = some (JsPrim.bool true) := by
  refine ⟨?_, ?_, ?_⟩ <;>
    simp [applyConflictUpdate, transformToRecord, List.foldl,
      rowGet_rowSet_self, rowGet_rowSet_ne]

/-- Upserting any wishlist-transformed item preserves an already-settled id:
the first row matching `external_id = i` still exists afterwards and still
carries `in_collection = false`, `in_wishlist = true`. -/
theorem upsertRows_wishlist_preserves (i : Int) (it : DiscogsItem) (nowStr : String) (now : Nat) :
    ∀ rows : List Row,
      (∃ r, rows.find? (rowMatches [("external_id", JsPrim.str (toString i))]) = some r ∧
        rowGet r "in_collection" = some (JsPrim.bool false) ∧
        rowGet r "in_wishlist" = some (JsPrim.bool true)) →
      ∃ r, (upsertRows (transformToRecord it true nowStr) ["external_id"] now rows).find?
          (rowMatches [("external_id", JsPrim.str (toString i))]) = some r ∧
        rowGet r "in_collection" = some (JsPrim.bool false) ∧
        rowGet r "in_wishlist" = some (JsPrim.bool true) := by
  intro rows
  induction rows with
  | nil =>
    rintro ⟨r, hr, -, -⟩
    simp at hr
  | cons r0 rs ih =>
    rintro ⟨r, hfind, hic, hiw⟩
    have hfacts := conflictUpdate_wishlist_facts r0 it nowStr now
    by_cases hc : rowConflict r0 (transformToRecord it true nowStr) ["external_id"] = true
    · by_cases hm : rowMatches [("external_id", JsPrim.str (toString i))] r0 = true
      · have hext : rowGet r0 "external_id" = some (JsPrim.str (toString i)) := by
          rw [rowMatches_single] at hm
          exact of_decide_eq_true hm
        have hm' : rowMatches [("external_id", JsPrim.str (toString i))]
            (applyConflictUpdate r0 (transformToRecord it true nowStr) ["external_id"] now)
            = true := by
          rw [rowMatches_single, hfacts.1, hext]
          simp
        refine ⟨applyConflictUpdate r0 (transformToRecord it true nowStr) ["external_id"] now,
          ?_, hfacts.2.1, hfacts.2.2⟩
        simp [upsertRows, hc, List.find?_cons_of_pos, hm']
      · have hm' : ¬ (rowMatches [("external_id", JsPrim.str (toString i))]
            (applyConflictUpdate r0 (transformToRecord it true nowStr) ["external_id"] now)
            = true) := by
          rw [rowMatches_single, hfacts.1]
          rw [rowMatches_single] at hm
          exact hm
        rw [List.find?_cons_of_neg _ hm] at hfind
        refine ⟨r, ?_, hic, hiw⟩
        simp only [upsertRows, if_pos hc]
        rw [List.find?_cons_of_neg _ hm']
        exact hfind
    · by_cases hm : rowMatches [("external_id", JsPrim.str (toString i))] r0 = true
      · rw [List.find?_cons_of_pos _ hm] at hfind
        injection hfind with hfind
        subst hfind
        refine ⟨r0, ?_, hic, hiw⟩
        simp only [upsertRows, if_neg hc]
        rw [List.find?_cons_of_pos _ hm]
      · rw [List.find?_cons_of_neg _ hm] at hfind
        obtain ⟨r', hr', f1, f2⟩ := ih ⟨r, hfind, hic, hiw⟩
        refine ⟨r', ?_, f1, f2⟩
        simp only [upsertRows, if_neg hc]
        rw [List.find?_cons_of_neg _ hm]
        exact hr'

/-- Upserting a wishlist-transformed item whose release id is `i` settles
the id: afterwards the first row matching `external_id = i` carries
`in_collection = false`, `in_wishlist = true` — whether the upsert updated
an existing row (pre-populated table, earlier collection upsert) or
inserted a fresh one. -/
theorem upsertRows_wishlist_settles (i : Int) (it : DiscogsItem) (nowStr : String) (now : Nat)
    (hid : (resolveBasicInformation it).id = some i) :
    ∀ rows : List Row,
      ∃ r, (upsertRows (transformToRecord it true nowStr) ["external_id"] now rows).find?
          (rowMatches [("external_id", JsPrim.str (toString i))]) = some r ∧
        rowGet r "in_collection" = some (JsPrim.bool false) ∧
        rowGet r "in_wishlist" = some (JsPrim.bool true) := by
  have hext := transform_external_id it i nowStr true hid
  have hflags := transform_wishlist_flags it nowStr
  intro rows
  induction rows with
  | nil =>
    have hm : rowMatches [("external_id", JsPrim.str (toString i))]
        (transformToRecord it true nowStr) = true := by
      rw [rowMatches_single, hext]
      simp
    refine ⟨transformToRecord it true nowStr, ?_, hflags.1, hflags.2⟩
    simp [upsertRows, List.find?_cons_of_pos, hm]
  | cons r0 rs ih =>
    have hfacts := conflictUpdate_wishlist_facts r0 it nowStr now
    by_cases hc : rowConflict r0 (transformToRecord it true nowStr) ["external_id"] = true
    · have hcr : rowGet r0 "external_id"
          = rowGet (transformToRecord it true nowStr) "external_id" := by
        rw [rowConflict_single] at hc
        exact of_decide_eq_true hc
      have hm' : rowMatches [("external_id", JsPrim.str (toString i))]
          (applyConflictUpdate r0 (transformToRecord it true nowStr) ["external_id"] now)
          = true := by
        rw [rowMatches_single, hfacts.1, hcr, hext]
        simp
      refine ⟨applyConflictUpdate r0 (transformToRecord it true nowStr) ["external_id"] now,
        ?_, hfacts.2.1, hfacts.2.2⟩
      simp [upsertRows, hc, List.find?_cons_of_pos, hm']
    · have hm : ¬ (rowMatches [("external_id", JsPrim.str (toString i))] r0 = true) := by
        intro hm
        apply hc
        rw [rowMatches_single] at hm
        rw [rowConflict_single, of_decide_eq_true hm, hext]
        simp
      obtain ⟨r', hr', f1, f2⟩ := ih
      refine ⟨r', ?_, f1, f2⟩
      simp only [upsertRows, if_neg hc]
      rw [List.find?_cons_of_neg _ hm]
      exact hr'

/-- The records table after one record's transform-and-upsert step. -/
theorem getTable_processOneRecord (s : SysState) (it : DiscogsItem) (isWishlist : Bool)
    (nowStr : String) (now : Nat) :
    getTable (processOneRecord s it isWishlist nowStr now).db "records"
      = upsertRows (transformToRecord it isWishlist nowStr) ["external_id"] now
          (getTable s.db "records") := by
  simp [processOneRecord, cachedUpsert, dbUpsert, getTable_setTable_self]

/-- Writing one table leaves every other table's binding alone. -/
theorem find?_setTableRows_ne (t t' : String) (hne : ¬ (t = t')) (rows : List Row) :
    ∀ l : List (String × List Row),
      (setTableRows t rows l).find? (fun e => e.1 = t') = l.find? (fun e => e.1 = t') := by
  intro l
  induction l with
  | nil => simp [setTableRows, List.find?, hne]
  | cons a as ih =>
    by_cases h : a.1 = t
    · have ha : ¬ (a.1 = t') := by rw [h]; exact hne
      simp [setTableRows, h, List.find?, hne, ha]
    · have hne' : ¬ (t' = t) := fun hh => hne hh.symm
      by_cases h' : a.1 = t'
      · simp [setTableRows, h, List.find?, h', hne']
      · simp only [setTableRows, if_neg h]
        simp [List.find?, h', ih]

/-- Reading a table other than the one just written. -/
theorem getTable_setTable_ne (db : DbState) (t t' : String) (rows : List Row)
    (hne : ¬ (t = t')) :
    getTable (setTable db t rows) t' = getTable db t' := by
  simp [getTable, setTable, find?_setTableRows_ne t t' hne]

/-- A sync-status write never touches the records table. -/
theorem getTable_updateSyncStatus (s : SysState) (service : String) (inProgress : Bool)
    (errorMessage : Option String) (now : Nat) :
    getTable (updateSyncStatus s service inProgress errorMessage now).db "records"
      = getTable s.db "records" := by
  simp only [updateSyncStatus, cachedUpdate, dbUpdate]
  rw [getTable_setTable_ne _ _ _ _ (by decide)]

/-- The whole wishlist pass preserves an already-settled id. -/
theorem processRecordsSeq_wishlist_preserves (i : Int) (nowStr : String) (now : Nat) :
    ∀ (ws : List DiscogsItem) (s : SysState),
      (∃ r, (getTable s.db "records").find?
          (rowMatches [("external_id", JsPrim.str (toString i))]) = some r ∧
        rowGet r "in_collection" = some (JsPrim.bool false) ∧
        rowGet r "in_wishlist" = some (JsPrim.bool true)) →
      ∃ r, (getTable (processRecordsSeq s ws true nowStr now).db "records").find?
          (rowMatches [("external_id", JsPrim.str (toString i))]) = some r ∧
        rowGet r "in_collection" = some (JsPrim.bool false) ∧
        rowGet r "in_wishlist" = some (JsPrim.bool true) := by
  intro ws
  induction ws with
  | nil => intro s h; exact h
  | cons w ws ih =>
    intro s h
    have h1 := upsertRows_wishlist_preserves i w nowStr now (getTable s.db "records") h
    rw [← getTable_processOneRecord s w true nowStr now] at h1
    exact ih (processOneRecord s w true nowStr now) h1

/-- If any item of the wishlist list carries release id `i`, the wishlist
pass leaves the first `external_id = i` row with the wishlist flags,
whatever state the pass started from. -/
theorem processRecordsSeq_wishlist_settles (i : Int) (nowStr : String) (now : Nat) :
    ∀ (ws : List DiscogsItem) (s : SysState) (it : DiscogsItem), it ∈ ws →
      (resolveBasicInformation it).id = some i →
      ∃ r, (getTable (processRecordsSeq s ws true nowStr now).db "records").find?
          (rowMatches [("external_id", JsPrim.str (toString i))]) = some r ∧
        rowGet r "in_collection" = some (JsPrim.bool false) ∧
        rowGet r "in_wishlist" = some (JsPrim.bool true) := by
  intro ws
  induction ws with
  | nil =>
    intro s it hmem
    cases hmem
  | cons w ws ih =>
    intro s it hmem hid
    rcases List.mem_cons.mp hmem with heq | hmem'
    · subst heq
      have h1 := upsertRows_wishlist_settles i it nowStr now hid (getTable s.db "records")
      rw [← getTable_processOneRecord s it true nowStr now] at h1
      exact processRecordsSeq_wishlist_preserves i nowStr now ws
        (processOneRecord s it true nowStr now) h1
    · exact ih (processOneRecord s w true nowStr now) it hmem' hid

/-- Claim C1 as amended: for every external id that appears in both of a
source's lists, after one full sync pass — any initial store contents, any
collection and wishlist lists, the shared item anywhere in them — the
persisted record for that id has `inCollection = false` and
`inWishlist = true`: each list's upsert writes both flags
(`in_collection = !isWishlist`, `in_wishlist = isWishlist`) and the
`ON CONFLICT` update overwrites every non-conflict column, so whichever
list is processed last — always the wishlist — wins both flags. -/
theorem c1_amended_wishlist_pass_overwrites_flags (s : SysState)
    (collectionItems wishlistItems : List DiscogsItem) (item : DiscogsItem) (i : Int)
    (nowStr : String) (now : Nat)
    (hid : (resolveBasicInformation item).id = some i)
    (_hcol : item ∈ collectionItems) (hwish : item ∈ wishlistItems) :
    ∃ r, dbFindOne (syncRecordsSuccess s collectionItems wishlistItems nowStr now).db
        "records" [("external_id", JsPrim.str (toString i))] = some r ∧
      rowGet r "in_collection" = some (JsPrim.bool false) ∧
      rowGet r "in_wishlist" = some (JsPrim.bool true) := by
  obtain ⟨r, hr, f1, f2⟩ := processRecordsSeq_wishlist_settles i nowStr now wishlistItems
    (processRecordsSeq (updateSyncStatus s "discogs" true none now)
      collectionItems false nowStr now) item hwish hid
  refine ⟨r, ?_, f1, f2⟩
  show (getTable (syncRecordsSuccess s collectionItems wishlistItems nowStr now).db
      "records").find? (rowMatches [("external_id", JsPrim.str (toString i))]) = some r
  rw [show syncRecordsSuccess s collectionItems wishlistItems nowStr now
      = updateSyncStatus (processRecordsSeq (processRecordsSeq
          (updateSyncStatus s "discogs" true none now) collectionItems false nowStr now)
          wishlistItems true nowStr now) "discogs" false none now from rfl]
  rw [getTable_updateSyncStatus]
  exact hr

/-- Witness for C1 (amended): a two-item collection list and a one-item
wishlist list sharing release id 7, synced over a store already holding a
row for id 7 from an earlier pass. -/
theorem c1_amended_witness :
    (resolveBasicInformation ⟨some ⟨some 7, [], none, none, [], none, [], none, none, none,
        none⟩, ⟨some 7, [], none, none, [], none, [], none, none, none, none⟩, none⟩).id
      = some 7 ∧
    (⟨some ⟨some 7, [], none, none, [], none, [], none, none, none, none⟩,
      ⟨some 7, [], none, none, [], none, [], none, none, none, none⟩, none⟩ : DiscogsItem)
      ∈ [⟨some ⟨some 3, [], none, none, [], none, [], none, none, none, none⟩,
           ⟨some 3, [], none, none, [], none, [], none, none, none, none⟩, none⟩,
         ⟨some ⟨some 7, [], none, none, [], none, [], none, none, none, none⟩,
           ⟨some 7, [], none, none, [], none, [], none, none, none, none⟩, none⟩] ∧
    (⟨some ⟨some 7, [], none, none, [], none, [], none, none, none, none⟩,
      ⟨some 7, [], none, none, [], none, [], none, none, none, none⟩, none⟩ : DiscogsItem)
      ∈ [⟨some ⟨some 7, [], none, none, [], none, [], none, none, none, none⟩,
           ⟨some 7, [], none, none, [], none, [], none, none, none, none⟩, none⟩] ∧
    ∃ r, dbFindOne (syncRecordsSuccess
        ⟨⟨[("records", [[("external_id", JsPrim.str "7"),
            ("in_collection", JsPrim.bool true), ("in_wishlist", JsPrim.bool false)]])]⟩,
          emptyCache⟩
        [⟨some ⟨some 3, [], none, none, [], none, [], none, none, none, none⟩,
           ⟨some 3, [], none, none, [], none, [], none, none, none, none⟩, none⟩,
         ⟨some ⟨some 7, [], none, none, [], none, [], none, none, none, none⟩,
           ⟨some 7, [], none, none, [], none, [], none, none, none, none⟩, none⟩]
        [⟨some ⟨some 7, [], none, none, [], none, [], none, none, none, none⟩,
           ⟨some 7, [], none, none, [], none, [], none, none, none, none⟩, none⟩]
        "2025-01-01" 0).db "records" [("external_id", JsPrim.str (toString (7 : Int)))]
        = some r ∧
      rowGet r "in_collection" = some (JsPrim.bool false) ∧
      rowGet r "in_wishlist" = some (JsPrim.bool true) :=
  ⟨by decide, by decide, by decide,
   c1_amended_wishlist_pass_overwrites_flags
     ⟨⟨[("records", [[("external_id", JsPrim.str "7"),
         ("in_collection", JsPrim.bool true), ("in_wishlist", JsPrim.bool false)]])]⟩,
       emptyCache⟩
     [⟨some ⟨some 3, [], none, none, [], none, [], none, none, none, none⟩,
        ⟨some 3, [], none, none, [], none, [], none, none, none, none⟩, none⟩,
      ⟨some ⟨some 7, [], none, none, [], none, [], none, none, none, none⟩,
        ⟨some 7, [], none, none, [], none, [], none, none, none, none⟩, none⟩]
     [⟨some ⟨some 7, [], none, none, [], none, [], none, none, none, none⟩,
        ⟨some 7, [], none, none, [], none, [], none, none, none, none⟩, none⟩]
     ⟨some ⟨some 7, [], none, none, [], none, [], none, none, none, none⟩,
       ⟨some 7, [], none, none, [], none, [], none, none, none, none⟩, none⟩
     7 "2025-01-01" 0 (by decide) (by decide) (by decide)⟩

end Shelf
